import Mathlib

/-!
Verification of the filter-and-aggregation engine of the school-enrollment
visualisation application (`src/ProjectArbeit/EinschulungsProject.py`).

The embedding models one dataset row (`Row`), the cascading filter state of
the bar and scatter charts, and the data-shaping logic of the four chart
classes: `BarDiagram.update` (ranking), `ScatterPlot.update` (trend),
`PieDiagram.create_continent_avg_chart`,
`PieDiagram.create_range_distribution_chart` (with its dynamic binning),
and `PieDiagram.create_year_distribution_chart`.  Rendering concerns
(colours, fonts, canvas handling) are outside the model; the model captures
exactly the series, labels, ordering, flags and error/no-data outcomes that
the matplotlib calls receive.  Python floats are modelled by `ℚ`, years by
`ℤ`.
-/

namespace Einschulung

/-- One record of the loaded dataframe.  `rate` stands for the column
`Combined total net enrolment rate, primary, both sexes`. -/
structure Row where
  entity : String
  continent : String
  year : ℤ
  rate : ℚ
deriving DecidableEq, Repr

/-- `pandas.Series.unique`: the distinct values of a list in order of first
occurrence. -/
def pyUnique {α : Type} [DecidableEq α] : List α → List α :=
  go []
where
  go (seen : List α) : List α → List α
    | [] => []
    | x :: xs => if x ∈ seen then go seen xs else x :: go (x :: seen) xs

/-- The distinct continents of a dataframe, sorted ascending:
`sorted(df['Continent'].unique())` as computed in `set_data`. -/
def sortedContinents (df : List Row) : List String :=
  List.insertionSort (· ≤ ·) (pyUnique (df.map (·.continent)))

/-- The country list shown for one continent selection:
`countries_by_continent[c]` as built in `set_data` of `BarDiagram` and
`ScatterPlot` ("Alle" maps to all entities of the dataframe). -/
def countriesFor (df : List Row) (c : String) : List String :=
  if c = "Alle" then List.insertionSort (· ≤ ·) (pyUnique (df.map (·.entity)))
  else List.insertionSort (· ≤ ·) (pyUnique ((df.filter (·.continent == c)).map (·.entity)))

/-- The keys of `countries_by_continent`: "Alle" plus every continent of the
dataframe. -/
def comboKeys (df : List Row) : List String :=
  "Alle" :: sortedContinents df

/-! ## Ranking engine: `BarDiagram.update` -/

/-- The continent filter of `BarDiagram.update` (lines 217-222): the whole
dataframe for "Alle", otherwise the rows of the selected continent. -/
def barFiltered (df : List Row) (cont : String) : List Row :=
  if cont = "Alle" then df else df.filter (·.continent == cont)

/-- Row comparison used for `sort_values(by=rate, ascending=False)`:
descending by `rate`. -/
def rateDesc (a b : Row) : Prop := b.rate ≤ a.rate

instance : DecidableRel rateDesc := fun a b => inferInstanceAs (Decidable (b.rate ≤ a.rate))

instance : IsTotal Row rateDesc := ⟨fun a b => (le_total b.rate a.rate).elim Or.inl Or.inr⟩

instance : IsTrans Row rateDesc := ⟨fun _ _ _ h h' => le_trans h' h⟩

/-- `BarDiagram.update` (lines 215-233): filter by continent, sort the rows
descending by rate, emit the (entity, rate, year) triples in that order. -/
def barSeries (df : List Row) (cont : String) : List (String × ℚ × ℤ) :=
  (List.insertionSort rateDesc (barFiltered df cont)).map (fun r => (r.entity, r.rate, r.year))

/-! ## Trend engine: `ScatterPlot.update` -/

/-- The filter of `ScatterPlot.update` (lines 340-349): continent filter as
in the bar chart, then restriction to the selected country when one is
chosen. -/
def scatterFiltered (df : List Row) (cont ctry : String) : List Row :=
  let f1 := if cont = "Alle" then df else df.filter (·.continent == cont)
  if ctry = "Alle Länder" then f1 else f1.filter (·.entity == ctry)

/-- Single-entity mode of `ScatterPlot.update` (lines 359-365): the
(year, rate) pairs of the filtered rows, in the order the dataframe holds
them (`filtered_df['Year'].values` / `...values` are read off without any
sort). -/
def scatterSinglePoints (df : List Row) (cont ctry : String) : List (ℤ × ℚ) :=
  (scatterFiltered df cont ctry).map (fun r => (r.year, r.rate))

/-- Output of the multi-entity mode of `ScatterPlot.update`: one scatter
series per distinct entity, the legend flag, and the optional "n Länder"
count annotation (the scatter view never draws one; the per-continent
`PlotterDiagram` view is the only place such a text is produced). -/
structure TrendMultiChart where
  series : List (String × List (ℤ × ℚ))
  legend : Bool
  entityCountText : Option ℕ
deriving DecidableEq, Repr

/-- Multi-entity mode of `ScatterPlot.update` (lines 367-381):
`countries = filtered_df['Entity'].unique()`, one series per country with
its rows' (year, rate) values in dataframe order (a series is only drawn
when it has at least one point), and a legend exactly when
`len(countries) > 1 and len(countries) <= 15`.  No entity-count text is
drawn in this branch. -/
def scatterMulti (df : List Row) (cont : String) : TrendMultiChart :=
  let f1 := if cont = "Alle" then df else df.filter (·.continent == cont)
  let countries := pyUnique (f1.map (·.entity))
  { series := countries.filterMap (fun c =>
      let pts := (f1.filter (·.entity == c)).map (fun r => (r.year, r.rate))
      if pts.length > 0 then some (c, pts) else none),
    legend := decide (1 < countries.length) && decide (countries.length ≤ 15),
    entityCountText := none }

/-! ## Cascading filter state -/

/-- The selection state held by the combo boxes and `highlight_country` of
one chart (`BarDiagram` and `ScatterPlot` each own one). -/
structure FilterState where
  continent : String
  country : String
  highlight : Option String
deriving DecidableEq, Repr

/-- `BarDiagram.on_continent_selected` (lines 187-202): the combobox has
already stored the new continent; when it is a key of
`countries_by_continent` the country combobox is repopulated and reset to
"Alle Länder" (`current(0)`); `highlight_country` is cleared in every
case. -/
def barOnContinentSelected (df : List Row) (s : FilterState) (z : String) : FilterState :=
  if z ∈ comboKeys df then
    { continent := z, country := "Alle Länder", highlight := none }
  else
    { continent := z, country := s.country, highlight := none }

/-- `BarDiagram.on_country_selected` (lines 171-185): the combobox has
stored the new country; `highlight_country` becomes that country, or `None`
for "Alle Länder". -/
def barOnCountrySelected (s : FilterState) (y : String) : FilterState :=
  { s with country := y, highlight := if y = "Alle Länder" then none else some y }

/-- `ScatterPlot.on_continent_selected` (lines 394-409); the body is
identical to the bar chart's handler. -/
def scatterOnContinentSelected (df : List Row) (s : FilterState) (z : String) : FilterState :=
  if z ∈ comboKeys df then
    { continent := z, country := "Alle Länder", highlight := none }
  else
    { continent := z, country := s.country, highlight := none }

/-- `ScatterPlot.on_country_selected` (lines 411-425); identical to the bar
chart's handler. -/
def scatterOnCountrySelected (s : FilterState) (y : String) : FilterState :=
  { s with country := y, highlight := if y = "Alle Länder" then none else some y }

/-! ## Composition engine: `PieDiagram` -/

/-- Clamping of the minimum parameter, line 590:
`min_val = max(0, min(100, min_val))`. -/
def clampMin (x : ℚ) : ℚ := max 0 (min 100 x)

/-- Clamping of the step parameter, line 591:
`step_val = max(5, min(25, step_val))`. -/
def clampStep (x : ℚ) : ℚ := max 5 (min 25 x)

/-- The `while current < max_val` loop of lines 597-600, appending
`min(current + step_val, 100)` until 100 is reached.  The loop always
terminates because the clamped step is at least 5; the fuel argument is a
bound on the remaining iterations (21 suffices from any start in
[0, 100]). -/
def binsLoop (stepv : ℚ) : ℕ → ℚ → List ℚ
  | 0, _ => []
  | n + 1, current =>
    if current < 100 then
      let next := min (current + stepv) 100
      next :: binsLoop stepv n next
    else []

/-- Lines 586-600 of `create_range_distribution_chart`: clamp the
parameters and build the ascending boundary list
`bins = [min_val, min_val+step, ..., 100]`. -/
def makeBins (minv stepv : ℚ) : List ℚ :=
  let m := clampMin minv
  let s := clampStep stepv
  m :: binsLoop s 21 m

/-- Round half to even, to an integer: the rounding used by Python's
format specifier `.0f`. -/
def pyRound0 (q : ℚ) : ℤ :=
  let f := ⌊q⌋
  if q - f < 1/2 then f
  else if q - f > 1/2 then f + 1
  else if f % 2 = 0 then f else f + 1

/-- A boundary rendered for a bucket label, line 602: the value formatted
with `.0f` followed by a percent sign. -/
def pyFormat0f (q : ℚ) : String := toString (pyRound0 q) ++ "%"

/-- Line 602: one label per pair of consecutive boundaries. -/
def rangeLabels (bins : List ℚ) : List String :=
  (bins.zip bins.tail).map (fun p => pyFormat0f p.1 ++ "-" ++ pyFormat0f p.2)

/-- The bucket assignment of `pd.cut(..., bins=bins, include_lowest=True)`
(lines 605-610): with boundaries `b0 < b1 < ... < bn`, a value goes to the
first interval `[b0, b1]`, or to `(bi, b(i+1)]` for `i ≥ 1`; values below
`b0` or above `bn` get no bucket.  The scan returns the first index `i`
with `r ≤ b(i+1)`, provided `r ≥ b0`. -/
def cutScan (r : ℚ) : List ℚ → Option ℕ
  | [] => none
  | hi :: rest => if r ≤ hi then some 0 else (cutScan r rest).map (· + 1)

/-- See `cutScan`: bucket lookup of `pd.cut`, `none` when the value is
below the first boundary or above the last. -/
def cutIndex (bins : List ℚ) (r : ℚ) : Option ℕ :=
  match bins with
  | [] => none
  | b0 :: rest => if r < b0 then none else cutScan r rest

/-- Membership of a rate in bucket `i` of a boundary list, as a Boolean:
the first bucket is closed on both ends, every later bucket is open below
and closed above. -/
def inBucket (bins : List ℚ) (i : ℕ) (r : ℚ) : Bool :=
  match bins.get? i, bins.get? (i + 1) with
  | some lo, some hi => (if i = 0 then decide (lo ≤ r) else decide (lo < r)) && decide (r ≤ hi)
  | _, _ => false

/-- Lines 605-612: the per-bucket counts
`pd.cut(...).value_counts().sort_index()`.  On a categorical result
`value_counts` reports every category, zero counts included, and
`sort_index` puts them back in boundary order, so the result is one count
per bucket in ascending bucket order. -/
def bucketCounts (bins : List ℚ) (df : List Row) : List ℕ :=
  (List.range (bins.length - 1)).map
    (fun i => (df.filter (fun r => cutIndex bins r.rate == some i)).length)

/-- `float(s)` on a decimal literal: optional sign, digits, optional
fractional part.  `none` models the `ValueError` Python raises on a
non-numeric string. -/
def parsePyFloat (s : String) : Option ℚ :=
  match s.data with
  | '-' :: cs => (core cs).map (fun q => -q)
  | '+' :: cs => core cs
  | cs => core cs
where
  digitsVal (cs : List Char) : ℕ :=
    cs.foldl (fun n c => 10 * n + (c.toNat - 48)) 0
  core (cs : List Char) : Option ℚ :=
    let ip := cs.takeWhile (· ≠ '.')
    match cs.dropWhile (· ≠ '.') with
    | [] => if !ip.isEmpty && ip.all Char.isDigit then some (digitsVal ip : ℚ) else none
    | _ :: fp =>
      if !(ip.isEmpty && fp.isEmpty) && ip.all Char.isDigit && fp.all Char.isDigit
          && !fp.any (· = '.') then
        some ((digitsVal ip : ℚ) + (digitsVal fp : ℚ) / (10 : ℚ) ^ fp.length)
      else none

/-- The renderer-facing outcome of one Composition-engine mode: a pie
series of labelled values, the "no data" text of lines 614-617, or the
error text of lines 644-646. -/
inductive ChartOutput where
  | pie (slices : List (String × ℕ)) : ChartOutput
  | noData (msg : String) : ChartOutput
  | errorText (msg : String) : ChartOutput
deriving DecidableEq, Repr

/-- Whether an outcome is the in-chart error message of the `except`
branch. -/
def ChartOutput.isErrorText : ChartOutput → Bool
  | .errorText _ => true
  | _ => false

/-- The `try` body of `create_range_distribution_chart` (lines 586-642):
parse both spinbox strings (a parse failure raises, i.e. returns
`Except.error`), build the boundaries, the labels and the per-bucket
counts, and emit either the no-data text (when there are no buckets at
all) or the labelled pie series. -/
def rangeBody (df : List Row) (minS stepS : String) : Except String ChartOutput :=
  match parsePyFloat minS with
  | none => .error ("could not convert string to float: " ++ minS)
  | some minv =>
    match parsePyFloat stepS with
    | none => .error ("could not convert string to float: " ++ stepS)
    | some stepv =>
      let bins := makeBins minv stepv
      let labels := rangeLabels bins
      let counts := bucketCounts bins df
      if counts.length = 0 then
        .ok (.noData "Keine Daten in den angegebenen Bereichen")
      else
        .ok (.pie (labels.zip counts))

/-- `PieDiagram.create_range_distribution_chart` (lines 581-646): the
`try` body with its `except` handler, which turns any raised exception
into the in-chart text `Fehler bei der Diagrammerstellung`.  The function
is total: no exception leaves it. -/
def create_range_distribution_chart (df : List Row) (minS stepS : String) : ChartOutput :=
  match rangeBody df minS stepS with
  | .ok c => c
  | .error e => .errorText ("Fehler bei der Diagrammerstellung:\n" ++ e)

/-- The arithmetic mean of the rates of one continent's rows:
`df.groupby('Continent')[rate].mean()` for key `c`. -/
def groupMean (df : List Row) (c : String) : ℚ :=
  let rs := (df.filter (·.continent == c)).map (·.rate)
  rs.sum / rs.length

/-- Comparison used for `continent_avg.sort_values(ascending=False)`:
descending by mean. -/
def meanDesc (a b : String × ℚ) : Prop := b.2 ≤ a.2

instance : DecidableRel meanDesc := fun a b => inferInstanceAs (Decidable (b.2 ≤ a.2))

instance : IsTotal (String × ℚ) meanDesc :=
  ⟨fun a b => (le_total b.2 a.2).elim Or.inl Or.inr⟩

instance : IsTrans (String × ℚ) meanDesc := ⟨fun _ _ _ h h' => le_trans h' h⟩

/-- `PieDiagram.create_continent_avg_chart` (lines 547-570): group by
continent, take the mean rate per group, sort descending by mean, and
"explode" exactly the first slice
(`explode = [0.1 if i == 0 else 0 ...]`).  Each element carries
(continent, mean, exploded-flag). -/
def create_continent_avg_chart (df : List Row) : List (String × ℚ × Bool) :=
  let conts := List.insertionSort (· ≤ ·) (pyUnique (df.map (·.continent)))
  let sorted := List.insertionSort meanDesc (conts.map (fun c => (c, groupMean df c)))
  sorted.enum.map (fun p => (p.2.1, p.2.2, p.1 == 0))

/-- `PieDiagram.create_year_distribution_chart` (lines 648-655) before
label rendering: `df['Year'].value_counts().sort_index()`, one (year,
count) pair per distinct year in ascending year order. -/
def yearDistPairs (df : List Row) : List (ℤ × ℕ) :=
  let ys := List.insertionSort (· ≤ ·) (pyUnique (df.map (·.year)))
  ys.map (fun y => (y, (df.map (·.year)).count y))

/-- `PieDiagram.create_year_distribution_chart` (lines 648-655): the
labelled pie series, the label of a year being `str(int(year))`. -/
def create_year_distribution_chart (df : List Row) : List (String × ℕ) :=
  (yearDistPairs df).map (fun p => (toString p.1, p.2))

/-- The distinct entities of the continent-filtered dataframe in
`ScatterPlot.update`, in first-occurrence order:
`filtered_df['Entity'].unique()` of line 368. -/
def trendEntities (df : List Row) (cont : String) : List String :=
  pyUnique ((if cont = "Alle" then df else df.filter (·.continent == cont)).map (·.entity))

/-! ## Concrete datasets used by witnesses and counterexamples -/

/-- The three-row dataset of the specification's scenario section. -/
def scenarioD : List Row :=
  [⟨"Ghana", "Africa", 2010, 62.5⟩, ⟨"Kenya", "Africa", 2012, 74⟩,
   ⟨"France", "Europe", 2015, 99.1⟩]

/-- Two rows of one entity with the years out of order. -/
def dfUnsorted : List Row :=
  [⟨"Albania", "Europe", 2012, 50⟩, ⟨"Albania", "Europe", 2010, 60⟩]

/-- Sixteen rows with sixteen distinct entities on one continent. -/
def df16 : List Row :=
  [⟨"E01", "Africa", 2000, 50⟩, ⟨"E02", "Africa", 2000, 50⟩, ⟨"E03", "Africa", 2000, 50⟩,
   ⟨"E04", "Africa", 2000, 50⟩, ⟨"E05", "Africa", 2000, 50⟩, ⟨"E06", "Africa", 2000, 50⟩,
   ⟨"E07", "Africa", 2000, 50⟩, ⟨"E08", "Africa", 2000, 50⟩, ⟨"E09", "Africa", 2000, 50⟩,
   ⟨"E10", "Africa", 2000, 50⟩, ⟨"E11", "Africa", 2000, 50⟩, ⟨"E12", "Africa", 2000, 50⟩,
   ⟨"E13", "Africa", 2000, 50⟩, ⟨"E14", "Africa", 2000, 50⟩, ⟨"E15", "Africa", 2000, 50⟩,
   ⟨"E16", "Africa", 2000, 50⟩]

/-! ## Helper lemmas -/

theorem pyUnique_go_spec {α : Type} [DecidableEq α] :
    ∀ (xs seen : List α),
      (pyUnique.go seen xs).Nodup ∧ (∀ a, a ∈ pyUnique.go seen xs ↔ a ∈ xs ∧ a ∉ seen) := by
  intro xs
  induction xs with
  | nil => intro seen; simp [pyUnique.go]
  | cons x xs ih =>
    intro seen
    by_cases hx : x ∈ seen
    · simp only [pyUnique.go, if_pos hx]
      refine ⟨(ih seen).1, fun a => ?_⟩
      rw [(ih seen).2 a, List.mem_cons]
      constructor
      · rintro ⟨h1, h2⟩
        exact ⟨Or.inr h1, h2⟩
      · rintro ⟨rfl | h1, h2⟩
        · exact absurd hx h2
        · exact ⟨h1, h2⟩
    · simp only [pyUnique.go, if_neg hx]
      refine ⟨?_, fun a => ?_⟩
      · refine List.nodup_cons.mpr ⟨fun hmem => ?_, (ih (x :: seen)).1⟩
        exact (((ih (x :: seen)).2 x).mp hmem).2 (List.mem_cons_self x seen)
      · simp only [List.mem_cons, (ih (x :: seen)).2 a]
        constructor
        · rintro (rfl | ⟨h1, h2⟩)
          · exact ⟨Or.inl rfl, hx⟩
          · exact ⟨Or.inr h1, fun hs => h2 (Or.inr hs)⟩
        · rintro ⟨rfl | h1, h2⟩
          · exact Or.inl rfl
          · rcases eq_or_ne a x with rfl | hax
            · exact Or.inl rfl
            · exact Or.inr ⟨h1, fun h => h.elim hax h2⟩

theorem pyUnique_nodup {α : Type} [DecidableEq α] (l : List α) : (pyUnique l).Nodup :=
  (pyUnique_go_spec l []).1

theorem mem_pyUnique {α : Type} [DecidableEq α] {a : α} {l : List α} :
    a ∈ pyUnique l ↔ a ∈ l := by
  rw [show pyUnique l = pyUnique.go [] l from rfl, (pyUnique_go_spec l []).2 a]
  simp

theorem pyUnique_perm_dedup {α : Type} [DecidableEq α] (l : List α) :
    (pyUnique l).Perm l.dedup :=
  (List.perm_ext_iff_of_nodup (pyUnique_nodup l) l.nodup_dedup).mpr
    (fun a => by rw [mem_pyUnique, List.mem_dedup])

theorem enum_map_comp {α β : Type} (l : List α) (f : α → β) :
    l.enum.map (fun q => f q.2) = l.map f := by
  rw [show (fun q : ℕ × α => f q.2) = f ∘ Prod.snd from rfl, ← List.map_map, List.enum_map_snd]

theorem get?_tail' {α : Type} (l : List α) (i : ℕ) : l.tail.get? i = l.get? (i + 1) := by
  cases l <;> simp

theorem clampMin_nonneg (x : ℚ) : 0 ≤ clampMin x := le_max_left _ _

theorem clampMin_le_100 (x : ℚ) : clampMin x ≤ 100 :=
  max_le (by norm_num) (min_le_left _ _)

theorem clampStep_ge_5 (x : ℚ) : 5 ≤ clampStep x := le_max_left _ _

theorem clampStep_le_25 (x : ℚ) : clampStep x ≤ 25 :=
  max_le (by norm_num) (min_le_left _ _)

theorem clampStep_pos (x : ℚ) : 0 < clampStep x :=
  lt_of_lt_of_le (by norm_num) (clampStep_ge_5 x)

theorem clampMin_idem (x : ℚ) : clampMin (clampMin x) = clampMin x := by
  unfold clampMin
  rw [min_eq_right (max_le (by norm_num) (min_le_left _ _)), max_eq_right (le_max_left _ _)]

theorem clampStep_idem (x : ℚ) : clampStep (clampStep x) = clampStep x := by
  unfold clampStep
  rw [min_eq_right (max_le (by norm_num) (min_le_left _ _)), max_eq_right (le_max_left _ _)]

theorem binsLoop_chain_lt {s : ℚ} (hs : 0 < s) :
    ∀ (n : ℕ) (current : ℚ), List.Chain (· < ·) current (binsLoop s n current) := by
  intro n
  induction n with
  | zero => intro current; exact List.Chain.nil
  | succ n ih =>
    intro current
    by_cases h : current < 100
    · simp only [binsLoop, if_pos h]
      exact List.Chain.cons (lt_min (by linarith) h) (ih _)
    · simp only [binsLoop, if_neg h]
      exact List.Chain.nil

theorem binsLoop_chain_step (s : ℚ) :
    ∀ (n : ℕ) (current : ℚ),
      List.Chain (fun a b => b = min (a + s) 100) current (binsLoop s n current) := by
  intro n
  induction n with
  | zero => intro current; exact List.Chain.nil
  | succ n ih =>
    intro current
    by_cases h : current < 100
    · simp only [binsLoop, if_pos h]
      exact List.Chain.cons rfl (ih _)
    · simp only [binsLoop, if_neg h]
      exact List.Chain.nil

theorem binsLoop_mem_le_100 (s : ℚ) :
    ∀ (n : ℕ) (current : ℚ), ∀ x ∈ binsLoop s n current, x ≤ 100 := by
  intro n
  induction n with
  | zero => intro current x hx; simp [binsLoop] at hx
  | succ n ih =>
    intro current x hx
    by_cases h : current < 100
    · simp only [binsLoop, if_pos h, List.mem_cons] at hx
      rcases hx with rfl | hx
      · exact min_le_right _ _
      · exact ih _ x hx
    · simp only [binsLoop, if_neg h] at hx
      simp at hx

theorem binsLoop_eq_nil (s : ℚ) (n : ℕ) (current : ℚ) (h : ¬ current < 100) :
    binsLoop s n current = [] := by
  cases n with
  | zero => rfl
  | succ n => simp only [binsLoop, if_neg h]

theorem binsLoop_concat_100 {s : ℚ} (_hs : 0 < s) :
    ∀ (n : ℕ) (current : ℚ), current < 100 → 100 - current ≤ (n : ℚ) * s →
      ∃ l', binsLoop s n current = l' ++ [100] := by
  intro n
  induction n with
  | zero =>
    intro current h1 h2
    exfalso
    push_cast at h2
    linarith
  | succ n ih =>
    intro current h1 h2
    by_cases hc : current + s < 100
    · have hmin : min (current + s) 100 = current + s := min_eq_left (le_of_lt hc)
      have h2' : 100 - (current + s) ≤ (n : ℚ) * s := by
        push_cast at h2 ⊢
        nlinarith
      rcases ih (current + s) hc h2' with ⟨l', hl'⟩
      refine ⟨(current + s) :: l', ?_⟩
      simp only [binsLoop, if_pos h1, hmin, hl']
      rfl
    · have hmin : min (current + s) 100 = 100 := min_eq_right (by linarith)
      refine ⟨[], ?_⟩
      simp only [binsLoop, if_pos h1, hmin]
      rw [binsLoop_eq_nil s n 100 (by norm_num)]
      rfl

theorem makeBins_getLast (minv stepv : ℚ) : (makeBins minv stepv).getLast? = some 100 := by
  by_cases h : clampMin minv < 100
  · have hb : 100 - clampMin minv ≤ ((21 : ℕ) : ℚ) * clampStep stepv := by
      have h5 := clampStep_ge_5 stepv
      have h0 := clampMin_nonneg minv
      push_cast
      nlinarith
    rcases binsLoop_concat_100 (clampStep_pos stepv) 21 (clampMin minv) h hb with ⟨l', hl'⟩
    show (clampMin minv :: binsLoop (clampStep stepv) 21 (clampMin minv)).getLast? = some 100
    rw [hl', show clampMin minv :: (l' ++ [100]) = (clampMin minv :: l') ++ [100] from rfl]
    exact List.getLast?_concat _
  · have h100 : clampMin minv = 100 := le_antisymm (clampMin_le_100 _) (not_lt.mp h)
    show (clampMin minv :: binsLoop (clampStep stepv) 21 (clampMin minv)).getLast? = some 100
    rw [binsLoop_eq_nil _ _ _ h, h100]
    rfl

theorem makeBins_chain_lt (minv stepv : ℚ) :
    List.Chain' (· < ·) (makeBins minv stepv) :=
  binsLoop_chain_lt (clampStep_pos stepv) 21 (clampMin minv)

theorem makeBins_pairwise_lt (minv stepv : ℚ) :
    List.Pairwise (· < ·) (makeBins minv stepv) :=
  List.chain'_iff_pairwise.mp (makeBins_chain_lt minv stepv)

theorem countP_le_one_of_unique {l : List ℕ} (hl : l.Nodup) (p : ℕ → Bool)
    (h : ∀ a b, p a = true → p b = true → a = b) : l.countP p ≤ 1 := by
  rw [List.countP_eq_length_filter]
  rcases hf : l.filter p with - | ⟨a, - | ⟨b, t⟩⟩
  · simp
  · simp
  · exfalso
    have ha : a ∈ l.filter p := by rw [hf]; exact List.mem_cons_self _ _
    have hb : b ∈ l.filter p := by
      rw [hf]
      exact List.mem_cons_of_mem _ (List.mem_cons_self _ _)
    have hnd := hl.filter p
    rw [hf] at hnd
    have hab : a ≠ b := fun hh => (List.nodup_cons.mp hnd).1 (hh ▸ List.mem_cons_self b t)
    exact hab (h a b (List.mem_filter.mp ha).2 (List.mem_filter.mp hb).2)

theorem pairwise_lt_get?_lt {bins : List ℚ} (hb : List.Pairwise (· < ·) bins)
    {i j : ℕ} {a b : ℚ} (hij : i < j) (ha : bins.get? i = some a)
    (hb' : bins.get? j = some b) : a < b := by
  rcases List.get?_eq_some.mp ha with ⟨hia, ha'⟩
  rcases List.get?_eq_some.mp hb' with ⟨hjb, hb''⟩
  have hr := (List.pairwise_iff_get.mp hb) ⟨i, hia⟩ ⟨j, hjb⟩ hij
  rw [ha', hb''] at hr
  exact hr

theorem pairwise_lt_get?_le {bins : List ℚ} (hb : List.Pairwise (· < ·) bins)
    {i j : ℕ} {a b : ℚ} (hij : i ≤ j) (ha : bins.get? i = some a)
    (hb' : bins.get? j = some b) : a ≤ b := by
  rcases Nat.eq_or_lt_of_le hij with rfl | hlt
  · rw [ha] at hb'
    cases hb'
    exact le_refl _
  · exact le_of_lt (pairwise_lt_get?_lt hb hlt ha hb')

theorem inBucket_true_iff {bins : List ℚ} {i : ℕ} {r : ℚ} :
    inBucket bins i r = true ↔
      ∃ lo hi, bins.get? i = some lo ∧ bins.get? (i + 1) = some hi ∧
        (if i = 0 then lo ≤ r else lo < r) ∧ r ≤ hi := by
  unfold inBucket
  rcases h1 : bins.get? i with - | lo
  · simp
  · rcases h2 : bins.get? (i + 1) with - | hi
    · simp
    · by_cases h0 : i = 0 <;> simp [h0]

theorem inBucket_unique {bins : List ℚ} (hb : List.Pairwise (· < ·) bins) {r : ℚ} {i j : ℕ}
    (hi : inBucket bins i r = true) (hj : inBucket bins j r = true) : i = j := by
  have key : ∀ {i' j' : ℕ}, i' < j' → inBucket bins i' r = true →
      inBucket bins j' r = true → False := by
    intro i' j' hij hi' hj'
    rcases inBucket_true_iff.mp hi' with ⟨loI, hiI, _, hgi1, _, hri⟩
    rcases inBucket_true_iff.mp hj' with ⟨loJ, hiJ, hgj, _, hlj, _⟩
    rw [if_neg (by omega : ¬ j' = 0)] at hlj
    have hle : hiI ≤ loJ := pairwise_lt_get?_le hb (by omega : i' + 1 ≤ j') hgi1 hgj
    linarith
  rcases Nat.lt_trichotomy i j with h | h | h
  · exact absurd (key h hi hj) (by simp)
  · exact h
  · exact absurd (key h hj hi) (by simp)

theorem cutScan_eq_some_iff {r : ℚ} :
    ∀ {l : List ℚ} {i : ℕ},
      cutScan r l = some i ↔
        (∃ hi, l.get? i = some hi ∧ r ≤ hi)
          ∧ ∀ j < i, ∀ b, l.get? j = some b → b < r := by
  intro l
  induction l with
  | nil => intro i; simp [cutScan]
  | cons h0 rest ih =>
    intro i
    by_cases h : r ≤ h0
    · rw [cutScan, if_pos h]
      constructor
      · intro he
        have : i = 0 := (Option.some.injEq _ _ ▸ he).symm
        subst this
        exact ⟨⟨h0, rfl, h⟩, by omega⟩
      · rintro ⟨-, hmin⟩
        rcases Nat.eq_zero_or_pos i with rfl | hpos
        · rfl
        · exact absurd (hmin 0 hpos h0 rfl) (not_lt.mpr h)
    · rw [cutScan, if_neg h]
      constructor
      · intro hm
        rcases Option.map_eq_some'.mp hm with ⟨i', hsc, rfl⟩
        rcases ih.mp hsc with ⟨⟨b, hb, hrb⟩, hmin⟩
        refine ⟨⟨b, by simpa using hb, hrb⟩, ?_⟩
        intro j hj c hc
        cases j with
        | zero =>
          rw [List.get?_cons_zero] at hc
          cases hc
          exact not_le.mp h
        | succ j' =>
          exact hmin j' (by omega) c (by simpa using hc)
      · rintro ⟨⟨b, hb, hrb⟩, hmin⟩
        cases i with
        | zero =>
          rw [List.get?_cons_zero] at hb
          cases hb
          exact absurd hrb h
        | succ i' =>
          have hsc : cutScan r rest = some i' :=
            ih.mpr ⟨⟨b, by simpa using hb, hrb⟩,
              fun j hj c hc => hmin (j + 1) (by omega) c (by simpa using hc)⟩
          rw [hsc]
          rfl

theorem cutScan_eq_none {r : ℚ} :
    ∀ {l : List ℚ}, (∀ x ∈ l, x < r) → cutScan r l = none := by
  intro l
  induction l with
  | nil => intro _; rfl
  | cons h0 rest ih =>
    intro hx
    rw [cutScan, if_neg (not_le.mpr (hx h0 (List.mem_cons_self _ _)))]
    rw [ih (fun x hm => hx x (List.mem_cons_of_mem _ hm))]
    rfl

theorem cutIndex_eq_some_iff {bins : List ℚ} (hb : List.Pairwise (· < ·) bins)
    (r : ℚ) (i : ℕ) :
    cutIndex bins r = some i ↔ inBucket bins i r = true := by
  cases bins with
  | nil =>
    constructor
    · intro h; cases h
    · intro h
      rcases inBucket_true_iff.mp h with ⟨lo, -, hglo, -, -, -⟩
      cases hglo
  | cons b0 rest =>
    rw [cutIndex]
    by_cases h0 : r < b0
    · rw [if_pos h0]
      constructor
      · intro h; cases h
      · intro hib
        rcases inBucket_true_iff.mp hib with ⟨lo, hi, hglo, -, hcond, -⟩
        have hb0lo : b0 ≤ lo :=
          pairwise_lt_get?_le hb (Nat.zero_le i) (List.get?_cons_zero) hglo
        by_cases hi0 : i = 0
        · rw [if_pos hi0] at hcond
          linarith
        · rw [if_neg hi0] at hcond
          linarith
    · rw [if_neg h0]
      rw [cutScan_eq_some_iff, inBucket_true_iff]
      constructor
      · rintro ⟨⟨hiv, hghi, hrhi⟩, hmin⟩
        cases i with
        | zero =>
          refine ⟨b0, hiv, List.get?_cons_zero, by simpa using hghi, ?_, hrhi⟩
          rw [if_pos rfl]
          exact not_lt.mp h0
        | succ i' =>
          have hlen : i' < rest.length := by
            rcases List.get?_eq_some.mp hghi with ⟨hl, -⟩
            omega
          rcases hg : rest.get? i' with - | lo
          · rw [List.get?_eq_none] at hg
            omega
          · refine ⟨lo, hiv, by simpa using hg, by simpa using hghi, ?_, hrhi⟩
            rw [if_neg (by omega : ¬ i' + 1 = 0)]
            exact hmin i' (by omega) lo hg
      · rintro ⟨lo, hiv, hglo, hghi, hcond, hrhi⟩
        refine ⟨⟨hiv, by simpa using hghi, hrhi⟩, ?_⟩
        intro j hj c hc
        have hle : c ≤ lo :=
          pairwise_lt_get?_le hb (by omega : j + 1 ≤ i) (by simpa using hc) hglo
        by_cases hi0 : i = 0
        · omega
        · rw [if_neg hi0] at hcond
          linarith

/-! ## Theorems -/

/-- **C2.** Ranking engine: for every dataset and continent selection, the
bar series is a permutation of the (entity, rate, year) triples of exactly
the rows whose continent matches the selection (all rows for "Alle"), and
it is sorted non-increasing by rate. -/
theorem c2_ranking_filter_and_descending_sort (df : List Row) (cont : String) :
    (barSeries df cont).Perm
        ((barFiltered df cont).map (fun r => (r.entity, r.rate, r.year)))
    ∧ (∀ r : Row, r ∈ barFiltered df cont ↔
        r ∈ df ∧ (cont = "Alle" ∨ r.continent = cont))
    ∧ List.Chain' (fun a b : String × ℚ × ℤ => b.2.1 ≤ a.2.1) (barSeries df cont) := by
  refine ⟨?_, ?_, ?_⟩
  · exact (List.perm_insertionSort rateDesc (barFiltered df cont)).map _
  · intro r
    by_cases h : cont = "Alle" <;>
      simp [barFiltered, h, List.mem_filter]
  · have hs : List.Pairwise rateDesc (List.insertionSort rateDesc (barFiltered df cont)) :=
      List.sorted_insertionSort rateDesc (barFiltered df cont)
    have hp : List.Pairwise (fun a b : String × ℚ × ℤ => b.2.1 ≤ a.2.1)
        ((List.insertionSort rateDesc (barFiltered df cont)).map
          (fun r => (r.entity, r.rate, r.year))) :=
      hs.map (fun r : Row => (r.entity, r.rate, r.year)) (fun a b h => h)
    exact hp.chain'

/-- **C6.** Composition engine, range-distribution mode: a non-numeric
minimum or step parameter makes the `try` body raise, and the `except`
handler converts this into the in-chart error text; the function is total,
so no exception reaches the caller. -/
theorem c6_parameter_error_caught (df : List Row) (minS stepS : String)
    (h : parsePyFloat minS = none ∨ parsePyFloat stepS = none) :
    (create_range_distribution_chart df minS stepS).isErrorText = true := by
  unfold create_range_distribution_chart rangeBody
  rcases h with h | h
  · rw [h]
    rfl
  · cases hm : parsePyFloat minS
    · rfl
    · rw [h]
      rfl

/-- Witness for C6: the literal spinbox text "abc" yields the in-chart
error outcome. -/
theorem c6_parameter_error_caught_witness :
    (create_range_distribution_chart scenarioD "abc" "10").isErrorText = true :=
  c6_parameter_error_caught scenarioD "abc" "10" (Or.inl (by decide))

/-- **C5.** Composition engine, range-distribution mode: whenever the
parameters parse but produce zero buckets, the emitted result is the
no-data outcome with its explanatory message. -/
theorem c5_zero_buckets_no_data (df : List Row) (minS stepS : String) (minv stepv : ℚ)
    (h1 : parsePyFloat minS = some minv) (h2 : parsePyFloat stepS = some stepv)
    (h3 : (bucketCounts (makeBins minv stepv) df).length = 0) :
    create_range_distribution_chart df minS stepS =
      ChartOutput.noData "Keine Daten in den angegebenen Bereichen" := by
  unfold create_range_distribution_chart rangeBody
  rw [h1, h2]
  simp [h3]

/-- Witness for C5: `min = 100` clamps to a single boundary, hence zero
buckets, and the chart is the no-data outcome. -/
theorem c5_zero_buckets_no_data_witness :
    create_range_distribution_chart scenarioD "100" "10" =
      ChartOutput.noData "Keine Daten in den angegebenen Bereichen" :=
  c5_zero_buckets_no_data scenarioD "100" "10" 100 10 (by decide) (by decide) rfl

/-- **C7.** Cascading-filter invariant, for both the ranking (bar) and the
trend (scatter) chart: selecting continent `x`, then country `y` offered
for `x`, then any other continent `z` available in the combobox resets the
country selection to "Alle Länder" and clears the highlight. -/
theorem c7_cascading_filter_reset (df : List Row) (s : FilterState) (x y z : String)
    (_hzx : z ≠ x) (_hy : y ∈ countriesFor df x) (hz : z ∈ comboKeys df) :
    (barOnContinentSelected df
        (barOnCountrySelected (barOnContinentSelected df s x) y) z).country = "Alle Länder"
    ∧ (barOnContinentSelected df
        (barOnCountrySelected (barOnContinentSelected df s x) y) z).highlight = none
    ∧ (scatterOnContinentSelected df
        (scatterOnCountrySelected (scatterOnContinentSelected df s x) y) z).country
          = "Alle Länder"
    ∧ (scatterOnContinentSelected df
        (scatterOnCountrySelected (scatterOnContinentSelected df s x) y) z).highlight
          = none := by
  refine ⟨?_, ?_, ?_, ?_⟩ <;>
    simp [barOnContinentSelected, scatterOnContinentSelected, hz]

/-- Witness for C7: on the scenario dataset, Africa → Ghana → Europe ends
with no selected country and no highlight in both charts. -/
theorem c7_cascading_filter_reset_witness :
    (barOnContinentSelected scenarioD
        (barOnCountrySelected
          (barOnContinentSelected scenarioD ⟨"Alle", "Alle Länder", none⟩ "Africa") "Ghana")
        "Europe").country = "Alle Länder"
    ∧ (barOnContinentSelected scenarioD
        (barOnCountrySelected
          (barOnContinentSelected scenarioD ⟨"Alle", "Alle Länder", none⟩ "Africa") "Ghana")
        "Europe").highlight = none
    ∧ (scatterOnContinentSelected scenarioD
        (scatterOnCountrySelected
          (scatterOnContinentSelected scenarioD ⟨"Alle", "Alle Länder", none⟩ "Africa") "Ghana")
        "Europe").country = "Alle Länder"
    ∧ (scatterOnContinentSelected scenarioD
        (scatterOnCountrySelected
          (scatterOnContinentSelected scenarioD ⟨"Alle", "Alle Länder", none⟩ "Africa") "Ghana")
        "Europe").highlight = none :=
  c7_cascading_filter_reset scenarioD ⟨"Alle", "Alle Länder", none⟩ "Africa" "Ghana" "Europe"
    (by decide)
    (by
      unfold countriesFor
      rw [if_neg (by decide : ¬ ("Africa" : String) = "Alle")]
      exact (List.perm_insertionSort _ _).mem_iff.mpr (by decide))
    (by
      unfold comboKeys sortedContinents
      refine List.mem_cons.mpr (Or.inr ?_)
      exact (List.perm_insertionSort _ _).mem_iff.mpr (by decide))

/-- **C1, counterexample.** Trend engine, single-entity mode: on a dataset
whose rows are not in year order, the emitted (year, rate) series is not
sorted ascending by year — the code reads the values off in dataframe
order without sorting. -/
theorem c1_counterexample :
    scatterSinglePoints dfUnsorted "Alle" "Albania" = [(2012, 50), (2010, 60)]
    ∧ ¬ List.Chain' (fun p q : ℤ × ℚ => p.1 ≤ q.1)
        (scatterSinglePoints dfUnsorted "Alle" "Albania") := by
  have heq : scatterSinglePoints dfUnsorted "Alle" "Albania" = [(2012, 50), (2010, 60)] := rfl
  refine ⟨heq, ?_⟩
  intro hch
  rw [heq] at hch
  rcases List.chain'_cons.mp hch with ⟨hle, -⟩
  exact absurd hle (by decide)

/-- **C1, amended.** Trend engine, single-entity mode: for every dataset
and every specific country selection, the emitted series consists of
exactly that entity's (year, rate) pairs restricted by the continent
filter, in the dataframe's original row order (no re-sort by year). -/
theorem c1_single_entity_series (df : List Row) (cont ctry : String)
    (h : ctry ≠ "Alle Länder") :
    scatterSinglePoints df cont ctry =
      (df.filter (fun r => (decide (cont = "Alle") || r.continent == cont)
          && r.entity == ctry)).map (fun r => (r.year, r.rate)) := by
  unfold scatterSinglePoints scatterFiltered
  rw [if_neg h]
  by_cases hc : cont = "Alle"
  · simp [hc, List.filter_filter]
  · simp [hc, List.filter_filter, Bool.and_comm]

/-- Witness for the amended C1 at a concrete input. -/
theorem c1_single_entity_series_witness :
    scatterSinglePoints dfUnsorted "Alle" "Albania" =
      (dfUnsorted.filter (fun r => (decide (("Alle" : String) = "Alle") || r.continent == "Alle")
          && r.entity == "Albania")).map (fun r => (r.year, r.rate)) :=
  c1_single_entity_series dfUnsorted "Alle" "Albania" (by decide)

/-- **C4, counterexample.** Trend engine, multi-entity mode: on a dataset
with sixteen distinct entities the legend is suppressed, but no
entity-count annotation is produced — the chart output carries none. -/
theorem c4_counterexample :
    15 < (trendEntities df16 "Alle").length
    ∧ (scatterMulti df16 "Alle").legend = false
    ∧ (scatterMulti df16 "Alle").entityCountText = none := by
  decide

/-- **C4, amended.** Trend engine, multi-entity mode: a legend is included
if and only if the number of distinct entities in the filtered set is in
[2, 15]; above 15 the legend is simply omitted and no entity count is
shown in this view (only the per-continent panel view draws such a
count). -/
theorem c4_legend_rule (df : List Row) (cont : String) :
    ((scatterMulti df cont).legend = true ↔
      2 ≤ (trendEntities df cont).length ∧ (trendEntities df cont).length ≤ 15)
    ∧ (scatterMulti df cont).entityCountText = none := by
  constructor
  · unfold scatterMulti trendEntities
    simp only [Bool.and_eq_true, decide_eq_true_eq]
    omega
  · rfl

/-- **C9.** Composition engine, year-distribution mode: the per-year
counts sum to the number of rows; the (year, count) pairs are sorted
strictly ascending by year; each count is the number of rows of that
year; the years listed are exactly the years occurring in the dataset;
and the chart labels each pair with the year rendered as an integer
string. -/
theorem c9_year_distribution (df : List Row) :
    ((yearDistPairs df).map (fun p => p.2)).sum = df.length
    ∧ List.Chain' (· < ·) ((yearDistPairs df).map (fun p => p.1))
    ∧ (∀ p ∈ yearDistPairs df, p.2 = (df.map (·.year)).count p.1)
    ∧ (∀ y : ℤ, (y ∈ (yearDistPairs df).map (fun p => p.1)) ↔ y ∈ df.map (·.year))
    ∧ create_year_distribution_chart df = (yearDistPairs df).map (fun p => (toString p.1, p.2)) := by
  set l : List ℤ := df.map (·.year) with hl
  have hys : yearDistPairs df = (List.insertionSort (· ≤ ·) (pyUnique l)).map
      (fun y => (y, l.count y)) := rfl
  set ys : List ℤ := List.insertionSort (· ≤ ·) (pyUnique l) with hysdef
  have hperm : ys.Perm (pyUnique l) := List.perm_insertionSort _ _
  have hnd : ys.Nodup := (hperm.nodup_iff).mpr (pyUnique_nodup l)
  have hfst : (yearDistPairs df).map (fun p => p.1) = ys := by
    rw [hys, List.map_map]
    exact List.map_id ys
  refine ⟨?_, ?_, ?_, ?_, rfl⟩
  · have h1 : (yearDistPairs df).map (fun p => p.2) = ys.map (fun y => l.count y) := by
      rw [hys, List.map_map]
      rfl
    have h2 : (ys.map (fun y => l.count y)).Perm (l.dedup.map (fun y => l.count y)) :=
      (hperm.trans (pyUnique_perm_dedup l)).map _
    rw [h1, h2.sum_eq, List.sum_map_count_dedup_eq_length l, hl, List.length_map]
  · rw [hfst]
    have hsorted : List.Pairwise (· ≤ ·) ys := List.sorted_insertionSort _ _
    exact ((hsorted.and hnd).imp (fun h => lt_of_le_of_ne h.1 h.2)).chain'
  · intro p hp
    rw [hys] at hp
    rcases List.mem_map.mp hp with ⟨y, _, rfl⟩
    rfl
  · intro y
    rw [hfst, hperm.mem_iff, mem_pyUnique]

/-- Witness for C9: the scenario dataset has one 2010 row, and the theorem
instantiates to its count. -/
theorem c9_year_distribution_witness :
    ((2010 : ℤ), (1 : ℕ)).2 = (scenarioD.map (·.year)).count ((2010 : ℤ), (1 : ℕ)).1 :=
  (c9_year_distribution scenarioD).2.2.1 (2010, 1) (by decide)

/-- **C8.** Composition engine, continent-average mode: for every dataset
the emitted categories are exactly the distinct continents, each value is
the arithmetic mean of that continent's rates, the slices are sorted
non-increasing by mean, and exactly the first slice in sorted order is
flagged for emphasis; on the scenario dataset the output is
[(Europe, 99.1), (Africa, 68.25)] with Europe flagged. -/
theorem c8_continent_average :
    (∀ df : List Row,
      ((create_continent_avg_chart df).map (fun p => p.1)).Perm
          (pyUnique (df.map (·.continent)))
      ∧ (∀ p ∈ create_continent_avg_chart df, p.2.1 = groupMean df p.1)
      ∧ List.Chain' (fun a b : String × ℚ × Bool => b.2.1 ≤ a.2.1)
          (create_continent_avg_chart df)
      ∧ (create_continent_avg_chart df).map (fun p => p.2.2)
          = (List.range (create_continent_avg_chart df).length).map (fun i => i == 0))
    ∧ create_continent_avg_chart scenarioD =
        [("Europe", 991/10, true), ("Africa", 273/4, false)] := by
  constructor
  · intro df
    set conts := List.insertionSort (· ≤ ·) (pyUnique (df.map (·.continent))) with hconts
    set pairs := conts.map (fun c => (c, groupMean df c)) with hpairs
    set sorted := List.insertionSort meanDesc pairs with hsorteddef
    have hchart : create_continent_avg_chart df
        = sorted.enum.map (fun p => (p.2.1, p.2.2, p.1 == 0)) := rfl
    have hspairs : sorted.Perm pairs := List.perm_insertionSort _ _
    refine ⟨?_, ?_, ?_, ?_⟩
    · have e1 : (create_continent_avg_chart df).map (fun p => p.1)
          = sorted.map (fun x => x.1) := by
        rw [hchart, List.map_map]
        exact enum_map_comp sorted (fun x => x.1)
      have e2 : pairs.map (fun x => x.1) = conts := by
        rw [hpairs, List.map_map]
        exact List.map_id conts
      have h1 : (sorted.map (fun x => x.1)).Perm (pairs.map (fun x => x.1)) :=
        hspairs.map _
      rw [e2] at h1
      rw [e1]
      exact h1.trans (List.perm_insertionSort _ _)
    · intro p hp
      rw [hchart] at hp
      rcases List.mem_map.mp hp with ⟨q, hq, rfl⟩
      have hq2 : q.2 ∈ sorted := by
        have hmq := List.mem_map_of_mem Prod.snd hq
        rwa [List.enum_map_snd] at hmq
      have hqp : q.2 ∈ pairs := hspairs.mem_iff.mp hq2
      rcases List.mem_map.mp hqp with ⟨c, _, hc⟩
      show q.2.2 = groupMean df q.2.1
      rw [← hc]
    · have e3 : (create_continent_avg_chart df).map (fun t => t.2.1)
          = sorted.map (fun x => x.2) := by
        rw [hchart, List.map_map]
        exact enum_map_comp sorted (fun x => x.2)
      have hps : List.Pairwise meanDesc sorted := List.sorted_insertionSort _ _
      have hchain : List.Chain' (fun a b : ℚ => b ≤ a)
          ((create_continent_avg_chart df).map (fun t => t.2.1)) := by
        rw [e3]
        exact (hps.map (fun x : String × ℚ => x.2) (fun a b h => h)).chain'
      exact (List.chain'_map (fun t : String × ℚ × Bool => t.2.1)).mp hchain
    · have e4 : (create_continent_avg_chart df).map (fun p => p.2.2)
          = (sorted.enum.map Prod.fst).map (fun i => i == 0) := by
        rw [hchart, List.map_map, List.map_map]
        rfl
      rw [e4, List.enum_map_fst]
      congr 1
      rw [hchart, List.length_map, List.enum_length]
  · have hAE : ("Africa" : String) ≤ "Europe" := by
      rw [String.le_iff_toList_le]
      decide
    have hu : pyUnique (scenarioD.map (·.continent)) = ["Africa", "Europe"] := by decide
    have hfA : (scenarioD.filter (·.continent == "Africa")).map (·.rate) = [62.5, 74] := rfl
    have hfE : (scenarioD.filter (·.continent == "Europe")).map (·.rate) = [99.1] := rfl
    have hgA : groupMean scenarioD "Africa" = 273/4 := by
      simp only [groupMean, hfA, List.sum_cons, List.sum_nil, List.length_cons,
        List.length_nil]
      norm_num
    have hgE : groupMean scenarioD "Europe" = 991/10 := by
      simp only [groupMean, hfE, List.sum_cons, List.sum_nil, List.length_cons,
        List.length_nil]
      norm_num
    unfold create_continent_avg_chart
    rw [hu]
    rw [show List.insertionSort (· ≤ ·) ["Africa", "Europe"] = ["Africa", "Europe"] from by
      simp [List.insertionSort, List.orderedInsert, hAE]]
    simp only [List.map_cons, List.map_nil, hgA, hgE]
    rw [show List.insertionSort meanDesc [("Africa", (273/4 : ℚ)), ("Europe", 991/10)]
        = [("Europe", (991/10 : ℚ)), ("Africa", 273/4)] from by
      simp [List.insertionSort, List.orderedInsert, meanDesc,
        (by norm_num : ¬ ((991 : ℚ)/10 ≤ 273/4))]]
    rfl

/-- Witness for C8: applying the mean property at the scenario dataset and
its Europe slice. -/
theorem c8_continent_average_witness :
    ((("Europe", (991/10 : ℚ), true) : String × ℚ × Bool)).2.1
      = groupMean scenarioD ("Europe", (991/10 : ℚ), true).1 :=
  (c8_continent_average.1 scenarioD).2.1 ("Europe", 991/10, true)
    (by rw [c8_continent_average.2]; exact List.mem_cons_self _ _)

/-- **C3.** BinningPolicy: for every (min_value, step) input the
parameters are clamped to [0,100] and [5,25] at use time (binning an
unclamped input equals binning its clamped value); the boundary list is
strictly ascending, starts at the clamped minimum, advances by the clamped
step capped at 100, and ends at exactly 100; and no rate lies in two
different buckets. -/
theorem c3_binning_policy (minv stepv : ℚ) :
    makeBins minv stepv = makeBins (clampMin minv) (clampStep stepv)
    ∧ (makeBins minv stepv).head? = some (clampMin minv)
    ∧ List.Chain' (· < ·) (makeBins minv stepv)
    ∧ List.Chain' (fun a b => b = min (a + clampStep stepv) 100) (makeBins minv stepv)
    ∧ (makeBins minv stepv).getLast? = some 100
    ∧ ∀ r : ℚ, (List.range ((makeBins minv stepv).length - 1)).countP
        (fun i => inBucket (makeBins minv stepv) i r) ≤ 1 := by
  refine ⟨?_, rfl, makeBins_chain_lt minv stepv, ?_, makeBins_getLast minv stepv, ?_⟩
  · unfold makeBins
    rw [clampMin_idem, clampStep_idem]
  · exact binsLoop_chain_step (clampStep stepv) 21 (clampMin minv)
  · intro r
    exact countP_le_one_of_unique (List.nodup_range _) _
      (fun a b ha hb => inBucket_unique (makeBins_pairwise_lt minv stepv) ha hb)

/-- **C10.** Range-distribution bucket membership direction (`pd.cut` with
`include_lowest=True` and right-closed intervals): a rate equal to a
boundary with a predecessor falls in the bucket below it, whose label is
built from that boundary pair; the clamped minimum falls in the lowest
bucket; rates below the clamped minimum or above 100 fall in no bucket;
and in general a bucket is open at its lower boundary and closed at its
upper boundary, except the lowest which is closed on both ends. -/
theorem c10_bucket_membership (minv stepv : ℚ) :
    (∀ (i : ℕ) (lo hi : ℚ), (makeBins minv stepv).get? i = some lo →
        (makeBins minv stepv).get? (i + 1) = some hi →
        cutIndex (makeBins minv stepv) hi = some i
        ∧ (rangeLabels (makeBins minv stepv)).get? i
            = some (pyFormat0f lo ++ "-" ++ pyFormat0f hi))
    ∧ (2 ≤ (makeBins minv stepv).length →
        cutIndex (makeBins minv stepv) (clampMin minv) = some 0)
    ∧ (∀ r : ℚ, r < clampMin minv → cutIndex (makeBins minv stepv) r = none)
    ∧ (∀ r : ℚ, 100 < r → cutIndex (makeBins minv stepv) r = none)
    ∧ (∀ (i : ℕ) (r : ℚ), cutIndex (makeBins minv stepv) r = some i ↔
        inBucket (makeBins minv stepv) i r = true) := by
  have hp := makeBins_pairwise_lt minv stepv
  refine ⟨?_, ?_, ?_, ?_, fun i r => cutIndex_eq_some_iff hp r i⟩
  · intro i lo hi hglo hghi
    constructor
    · rw [cutIndex_eq_some_iff hp, inBucket_true_iff]
      refine ⟨lo, hi, hglo, hghi, ?_, le_refl _⟩
      have hlt : lo < hi := pairwise_lt_get?_lt hp (by omega) hglo hghi
      by_cases h0 : i = 0
      · rw [if_pos h0]
        exact le_of_lt hlt
      · rw [if_neg h0]
        exact hlt
    · unfold rangeLabels
      rw [List.get?_map]
      have hz : ((makeBins minv stepv).zip (makeBins minv stepv).tail).get? i
          = some (lo, hi) := by
        rw [List.get?_zip_eq_some]
        exact ⟨hglo, by rw [get?_tail']; exact hghi⟩
      rw [hz]
      rfl
  · intro hlen
    rcases hg1 : (makeBins minv stepv).get? 1 with - | b1
    · rw [List.get?_eq_none] at hg1
      omega
    · rw [cutIndex_eq_some_iff hp, inBucket_true_iff]
      have hg0 : (makeBins minv stepv).get? 0 = some (clampMin minv) := rfl
      refine ⟨clampMin minv, b1, hg0, hg1, ?_,
        le_of_lt (pairwise_lt_get?_lt hp (by omega) hg0 hg1)⟩
      rw [if_pos rfl]
  · intro r hr
    show cutIndex (clampMin minv :: binsLoop (clampStep stepv) 21 (clampMin minv)) r = none
    rw [cutIndex, if_pos hr]
  · intro r hr
    show cutIndex (clampMin minv :: binsLoop (clampStep stepv) 21 (clampMin minv)) r = none
    rw [cutIndex,
      if_neg (not_lt.mpr (le_of_lt (lt_of_le_of_lt (clampMin_le_100 minv) hr)))]
    exact cutScan_eq_none
      (fun x hx => lt_of_le_of_lt (binsLoop_mem_le_100 _ _ _ x hx) hr)

set_option maxRecDepth 8000 in
/-- Witness for C10: on the boundaries of (60, 10), the boundary value 70
lands in the first bucket with its label, 59 and 101 land in no bucket. -/
theorem c10_bucket_membership_witness :
    cutIndex (makeBins 60 10) 70 = some 0
    ∧ (rangeLabels (makeBins 60 10)).get? 0 = some (pyFormat0f 60 ++ "-" ++ pyFormat0f 70)
    ∧ cutIndex (makeBins 60 10) 59 = none
    ∧ cutIndex (makeBins 60 10) 101 = none := by
  have hbins : makeBins 60 10 = [60, 70, 80, 90, 100] := by
    norm_num [makeBins, clampMin, clampStep, binsLoop, min_def, max_def]
  have h0 : (makeBins 60 10).get? 0 = some 60 := by rw [hbins]; rfl
  have h1 : (makeBins 60 10).get? 1 = some 70 := by rw [hbins]; rfl
  obtain ⟨hcut, hlab⟩ := (c10_bucket_membership 60 10).1 0 60 70 h0 h1
  refine ⟨hcut, hlab, ?_, ?_⟩
  · exact (c10_bucket_membership 60 10).2.2.1 59
      (by norm_num [clampMin, min_def, max_def])
  · exact (c10_bucket_membership 60 10).2.2.2.1 101 (by norm_num)

end Einschulung
